import Mathlib

/-!
Shallow embedding of the TermChat rendezvous-and-relay server from
`src/server.py`.  The live entry points are `handle_client_final` (worker per
connection), `relay` (one forwarding loop per direction), `read_line` (room-code
collection) and `main` (accept loop); the dead prototypes `handle_client` and
`handle_client_v2` are not modelled.  All text is restricted to ASCII; Python's
`str.strip`, `str.upper`, `str.lower` and `str.isprintable` are modelled
directly (`pyStrip`, `pyUpper`, `pyLower`, `pyIsPrintable`) over character
lists.  Socket sends are modelled as succeeding except where a branch of the
source reacts to a send failure, in which case the failure is an explicit
oracle input.
-/

/-- Lookup in a Python dict modelled as an association list (first binding wins;
the operations below keep at most one binding per key). -/
def dictFind {κ α : Type} [DecidableEq κ] (k : κ) : List (κ × α) → Option α
  | [] => none
  | p :: d => if k = p.1 then some p.2 else dictFind k d

/-- Python `d.pop(k, None)`: remove every binding of `k`. -/
def dictErase {κ α : Type} [DecidableEq κ] (k : κ) : List (κ × α) → List (κ × α)
  | [] => []
  | p :: d => if k = p.1 then dictErase k d else p :: dictErase k d

/-- Python `d[k] = v`: overwrite the binding of `k`. -/
def dictInsert {κ α : Type} [DecidableEq κ] (k : κ) (v : α) (d : List (κ × α)) :
    List (κ × α) :=
  (k, v) :: dictErase k d

/-- Python `str.isspace` membership for one ASCII character, the whitespace
alphabet of `str.strip()`. -/
def pyIsSpace (c : Char) : Bool :=
  c = ' ' || c = '\t' || c = '\n' || c = '\r' || c = '\x0b' || c = '\x0c'

/-- Python `s.strip()` on the character list of `s`. -/
def pyStrip (s : List Char) : List Char :=
  ((s.dropWhile pyIsSpace).reverse.dropWhile pyIsSpace).reverse

/-- Python `str.upper` on one ASCII character. -/
def pyToUpperChar (c : Char) : Char :=
  if 'a' ≤ c && c ≤ 'z' then Char.ofNat (c.toNat - 32) else c

/-- Python `str.lower` on one ASCII character. -/
def pyToLowerChar (c : Char) : Char :=
  if 'A' ≤ c && c ≤ 'Z' then Char.ofNat (c.toNat + 32) else c

/-- Python `s.upper()` on the character list of `s`. -/
def pyUpper (s : List Char) : List Char := s.map pyToUpperChar

/-- Python `s.lower()` on the character list of `s`. -/
def pyLower (s : List Char) : List Char := s.map pyToLowerChar

/-- Room-code normalization from `handle_client_final`, line 265:
`code = code.strip().upper()`. -/
def normalizeCode (raw : String) : String := String.mk (pyUpper (pyStrip raw.data))

/-- Visible effects on the sockets: a send of a string to a connection
(connections are identified by numbers) or the close of a connection. -/
inductive Effect
  | send (dst : Nat) (msg : String)
  | close (conn : Nat)
deriving DecidableEq

/-- Line 269: `"  Invalid code. Disconnecting.\r\n"`. -/
def invalidMsg : String := "  Invalid code. Disconnecting.\r\n"

/-- Line 287: `"  Room created! Waiting for partner...\r\n"`. -/
def roomCreatedMsg : String := "  Room created! Waiting for partner...\r\n"

/-- Line 290: `"\r\n  Timed out. Disconnecting.\r\n"`. -/
def timeoutMsg : String := "\r\n  Timed out. Disconnecting.\r\n"

/-- Line 297, sent by the waiter to itself once paired. -/
def waiterPairedMsg : String :=
  "\r\n  [Partner joined! Start chatting. Type /quit to leave]\r\n\r\n  You: "

/-- Line 298, sent by the waiter to the joining partner once paired. -/
def partnerConnectedMsg : String :=
  "\r\n  [Connected! Start chatting. Type /quit to leave]\r\n\r\n  You: "

/-- Line 307, sent by the joiner to its own connection. -/
def joinerConnectedMsg : String :=
  "  [Connected! Start chatting. Type /quit to leave]\r\n\r\n  You: "

/-- Line 213, departure notice sent to the receiver on the leave command. -/
def quitNotice : String := "\r\n  [Partner has left the chat. Goodbye!]\r\n"

/-- Line 220, the frame a relayed message is delivered in:
`f"\r\n  Them: \x7bmsg\x7d\r\n  You: "`. -/
def chatFrame (msg : String) : String := "\r\n  Them: " ++ msg ++ "\r\n  You: "

/-- Line 226, fresh input prompt echoed to the sender after a forwarded line. -/
def promptEcho : String := "\r  You: "

/-- Line 234, visual erasure echoed on a backspace. -/
def backspaceEcho : String := "\x08 \x08"

/-- Python `str.isprintable()` for a single ASCII character (the model's
alphabet): true exactly for `0x20`–`0x7e`.  The DEL and backspace characters are
consumed by an earlier branch of `read_line`, so only their membership here
being `false` matters for the remaining branch. -/
def pyIsPrintable (c : Char) : Bool := 0x20 ≤ c.toNat && c.toNat ≤ 0x7e

/-- One result of `conn.recv(1).decode(errors="ignore")` inside `read_line`:
a decoded character, an end-of-stream (`recv` returned an empty byte string,
which decodes to `""`), an expiry of the 60-second read deadline, or any other
socket error. -/
inductive RecvEv
  | chr (c : Char)
  | eof
  | timeout
  | err
deriving DecidableEq

/-- Result of a `read_line` run on a finite stream of recv results: the line
returned at a terminator, a `None` return (the bare `except` caught a timeout
or socket error), or `pending` — the input was exhausted with the loop still
running (the real function is still inside `while True`). -/
inductive LineRes
  | line (s : String)
  | fail
  | pending
deriving DecidableEq

/-- Loop body of `read_line` (src/server.py lines 329-346), character by
character.  An `eof` event reproduces the source's behaviour on a closed peer:
`""` is not a terminator, not a backspace, and `"".isprintable()` is `True` in
Python, so the iteration appends nothing and the loop continues. -/
def read_line_go (line : List Char) : List RecvEv → LineRes
  | [] => .pending
  | .timeout :: _ => .fail
  | .err :: _ => .fail
  | .eof :: rest => read_line_go line rest
  | .chr c :: rest =>
    if c = '\r' ∨ c = '\n' then .line (String.mk line)
    else if c = '\x7f' ∨ c = '\x08' then read_line_go line.dropLast rest
    else if pyIsPrintable c then read_line_go (line ++ [c]) rest
    else read_line_go line rest

/-- `read_line(conn)` from src/server.py lines 329-346, as a function of the
stream of recv results. -/
def read_line (input : List RecvEv) : LineRes := read_line_go [] input

/-- One observation made by an iteration of `relay`: the check of
`stop_event.is_set()` coming back true, or a result of `sender.recv(1)` —
a decoded character, end of stream (`if not chunk: break`), the 1-second poll
deadline expiring (`except socket.timeout: continue`), or another socket error
(`except: break`). -/
inductive RelayEv
  | stopObserved
  | chr (c : Char)
  | eof
  | timeout
  | err
deriving DecidableEq

/-- Loop of `relay` (src/server.py lines 189-246) for one direction
`sender → receiver`, as a function of the observation stream.  The result is
`none` when the input is exhausted with the loop still running, and
`some (effs, stop)` when the function returns, where `effs` lists the sends it
performed and `stop` is the state of the shared `stop_event` at return — the
`finally` block sets it on every return path.  Echo, frame and notice sends are
modelled as succeeding. -/
def relay_go (sender receiver : Nat) (buffer : List Char) :
    List RelayEv → Option (List Effect × Bool)
  | [] => none
  | .stopObserved :: _ => some ([], true)
  | .timeout :: rest => relay_go sender receiver buffer rest
  | .err :: _ => some ([], true)
  | .eof :: _ => some ([], true)
  | .chr c :: rest =>
    if c = '\r' ∨ c = '\n' then
      if buffer = [] then relay_go sender receiver [] rest
      else
        let msg := pyStrip buffer
        if pyLower msg = "/quit".data then some ([.send receiver quitNotice], true)
        else
          (relay_go sender receiver [] rest).map fun p =>
            (.send receiver (chatFrame (String.mk msg)) :: .send sender promptEcho :: p.1,
              p.2)
    else if c = '\x7f' ∨ c = '\x08' then
      if buffer = [] then relay_go sender receiver buffer rest
      else
        (relay_go sender receiver buffer.dropLast rest).map fun p =>
          (.send sender backspaceEcho :: p.1, p.2)
    else
      (relay_go sender receiver (buffer ++ [c]) rest).map fun p =>
        (.send sender (String.mk [c]) :: p.1, p.2)

/-- `relay(sender, receiver, label, stop_event)` started with an empty buffer.
The `label` argument of the source is unused by its body and is omitted. -/
def relay (sender receiver : Nat) (input : List RelayEv) :
    Option (List Effect × Bool) :=
  relay_go sender receiver [] input

/-- A character a chat line may contain without touching the terminator or
backspace branches of `relay` (any other byte is buffered verbatim). -/
def goodChar (c : Char) : Prop := c ≠ '\r' ∧ c ≠ '\n' ∧ c ≠ '\x7f' ∧ c ≠ '\x08'

instance (c : Char) : Decidable (goodChar c) := by
  unfold goodChar
  infer_instance

/-- The observation stream of one complete chat line followed by a newline. -/
def encodeLine (l : List Char) : List RelayEv := l.map .chr ++ [.chr '\n']

/-- The sends `relay` performs for a list of complete ordinary chat lines:
per line, the character echoes to the sender, then the framed message to the
receiver, then the fresh prompt to the sender. -/
def lineEffs (sender receiver : Nat) (ls : List (List Char)) : List Effect :=
  (ls.map fun l =>
    (l.map fun c => Effect.send sender (String.mk [c])) ++
      [Effect.send receiver (chatFrame (String.mk (pyStrip l))),
       Effect.send sender promptEcho]).flatten

/-- The messages delivered to connection `receiver`, in order, within an
effect trace. -/
def framesTo (receiver : Nat) (effs : List Effect) : List String :=
  effs.filterMap fun e =>
    match e with
    | .send dst msg => if dst = receiver then some msg else none
    | .close _ => none

/-- Progress of one `handle_client_final` worker with respect to the shared
room registry (lines 253-318): it is waiting in a room it created, it joined an
existing room (popping the waiter's entry, which it found under key `waiter`),
it was paired after its `readySignal` fired, it timed out, or its room code was
empty and it was rejected. -/
inductive Phase
  | waiting (code : String)
  | joined (waiter : Nat)
  | pairedDone (partner : Nat)
  | timedOut
  | rejected
deriving DecidableEq

/-- The dict `{"event": threading.Event(), "partner": None}` created at lines
281-282, plus the (ghost) wall-clock time of its creation, used to model the
expiry of `entry["event"].wait(timeout=300)`. -/
structure Entry where
  fired : Bool
  partner : Option Nat
  createdAt : Nat
deriving DecidableEq

/-- Global state of the server.  `connected_events` is the module-level dict of
line 250, mapping a normalized room code to the entry of the party waiting in
it; entries are identified by the connection number of their creator and kept
in `entries` even after being popped, since the waiting worker holds a Python
reference to the entry object after it leaves the dict.  `trace` records the
socket sends and closes performed so far (welcome-banner and prompt text,
excluded from the specification's scope, is not recorded). -/
structure Sys where
  connected_events : List (String × Nat)
  entries : List (Nat × Entry)
  conns : List (Nat × Phase)
  now : Nat
  trace : List Effect
deriving DecidableEq

/-- The server before any connection arrives. -/
def initSys : Sys :=
  { connected_events := [], entries := [], conns := [], now := 0, trace := [] }

/-- Pairing timeout of `entry["event"].wait(timeout=300)`, line 288. -/
def PAIR_TIMEOUT : Nat := 300

/-- An atomic step of the server.  `arrive c raw` is a fresh connection `c`
whose `read_line` returned the room-code line `raw`, running
`handle_client_final` up to the end of the `with events_lock` block of lines
272-284 (the whole absent/present check together with the corresponding insert
or pop runs under `events_lock`, hence as one step).  `wake c` is the waiting
worker `c` resuming from `entry["event"].wait(timeout=300)` and running lines
289-298, with the sends it performs succeeding.  `wakeTimeoutFail c` is the
same resumption when the wait outcome selects the timeout branch but the
notice send of line 290 raises: that send is not wrapped in a local `try`, so
control jumps to the worker's outer `except`/`finally` (lines 320-326) and the
pop of lines 291-292 never runs — the entry stays in `connected_events` and
only the close of the worker's own connection happens.  `tick dt` is the
passage of `dt` seconds of wall-clock time; no code of the server runs on the
mere passage of time. -/
inductive Act
  | arrive (c : Nat) (raw : String)
  | wake (c : Nat)
  | wakeTimeoutFail (c : Nat)
  | tick (dt : Nat)
deriving DecidableEq

/-- One step of the server; `none` when the action is not enabled in `s`
(the connection number is already in use, the worker is not waiting, or its
`wait` call would still be blocked). -/
def step (a : Act) (s : Sys) : Option Sys :=
  match a with
  | .tick dt => some { s with now := s.now + dt }
  | .arrive c raw =>
    match dictFind c s.conns with
    | some _ => none
    | none =>
      let code := normalizeCode raw
      if code = "" then
        some { s with conns := dictInsert c .rejected s.conns,
                      trace := s.trace ++ [.send c invalidMsg, .close c] }
      else
        match dictFind code s.connected_events with
        | some w =>
          match dictFind w s.entries with
          | none => none
          | some e =>
            some { s with
              connected_events := dictErase code s.connected_events,
              entries := dictInsert w { e with fired := true, partner := some c }
                s.entries,
              conns := dictInsert c (.joined w) s.conns,
              trace := s.trace ++ [.send c joinerConnectedMsg] }
        | none =>
          some { s with
            connected_events := dictInsert code c s.connected_events,
            entries := dictInsert c ⟨false, none, s.now⟩ s.entries,
            conns := dictInsert c (.waiting code) s.conns,
            trace := s.trace ++ [.send c roomCreatedMsg] }
  | .wake c =>
    match dictFind c s.conns with
    | some (.waiting code) =>
      match dictFind c s.entries with
      | none => none
      | some e =>
        if e.fired then
          match e.partner with
          | some p =>
            some { s with
              conns := dictInsert c (.pairedDone p) s.conns,
              trace := s.trace ++ [.send c waiterPairedMsg,
                .send p partnerConnectedMsg] }
          | none =>
            some { s with
              connected_events := dictErase code s.connected_events,
              conns := dictInsert c .timedOut s.conns,
              trace := s.trace ++ [.send c timeoutMsg, .close c] }
        else
          if e.createdAt + PAIR_TIMEOUT ≤ s.now then
            some { s with
              connected_events := dictErase code s.connected_events,
              conns := dictInsert c .timedOut s.conns,
              trace := s.trace ++ [.send c timeoutMsg, .close c] }
          else none
    | _ => none
  | .wakeTimeoutFail c =>
    match dictFind c s.conns with
    | some (.waiting _) =>
      match dictFind c s.entries with
      | none => none
      | some e =>
        if e.fired then
          match e.partner with
          | some _ => none
          | none =>
            some { s with
              conns := dictInsert c .timedOut s.conns,
              trace := s.trace ++ [.close c] }
        else
          if e.createdAt + PAIR_TIMEOUT ≤ s.now then
            some { s with
              conns := dictInsert c .timedOut s.conns,
              trace := s.trace ++ [.close c] }
          else none
    | _ => none

/-- Run a list of actions from a state, failing if any is not enabled. -/
def run : List Act → Sys → Option Sys
  | [], s => some s
  | a :: as, s =>
    match step a s with
    | none => none
    | some s' => run as s'

/-- States the server can actually be in. -/
inductive Reachable : Sys → Prop
  | base : Reachable initSys
  | next {s s' : Sys} (a : Act) (hs : Reachable s) (h : step a s = some s') :
      Reachable s'

/-- The outcomes outside one worker's control that select the path
`handle_client_final` (src/server.py lines 253-326) takes: the result of
`read_line` (line 262), whether the code was found in `connected_events` at
line 273, the result of `entry["event"].wait(timeout=300)` and the partner
field read after it (lines 288-289), and whether the notice sends of lines
296-309 succeed (a failure there makes the worker return early; the several
sends of one `try` block are collapsed into one flag because only the
resulting control flow is observable).  The relay-phase sends are supplied
separately as the traces of the two relay threads the worker spawns at lines
312-316. -/
structure Oracle where
  codeLine : Option String
  joinFound : Bool
  waitFired : Bool
  waitPartner : Option Nat
  notifyOk : Bool
deriving DecidableEq

/-- The socket sends and closes one `handle_client_final` worker performs over
its lifetime, in order.  Every path funnels into the `finally` block of lines
322-326, which closes this worker's own connection; banner and prompt sends,
outside the specification's scope, are omitted. -/
def handle_client_final (self : Nat) (o : Oracle) (effsA effsB : List Effect) :
    List Effect :=
  match o.codeLine with
  | none => [.close self]
  | some raw =>
    if normalizeCode raw = "" then [.send self invalidMsg, .close self]
    else if o.joinFound then
      if o.notifyOk then
        .send self joinerConnectedMsg :: (effsA ++ effsB ++ [.close self])
      else [.close self]
    else if o.waitFired then
      match o.waitPartner with
      | some p =>
        if o.notifyOk then
          .send self roomCreatedMsg :: .send self waiterPairedMsg ::
            .send p partnerConnectedMsg :: (effsA ++ effsB ++ [.close self])
        else [.send self roomCreatedMsg, .close self]
      | none => [.send self roomCreatedMsg, .send self timeoutMsg, .close self]
    else [.send self roomCreatedMsg, .send self timeoutMsg, .close self]

/-- Line 302 of `handle_client_final`, run by the joining worker after the
lock block:
`partner_conn = entry["partner"] if entry.get("partner") else None`
(a socket object is truthy, `None` is falsy).  The entry it reads is the one
it popped — in which line 276 stored the joiner's own socket; the waiting
party's connection is never stored anywhere in the entry (the dict of lines
281-282 holds only the event and the partner field). -/
def joiner_partner_conn (e : Entry) : Option Nat :=
  match e.partner with
  | some p => some p
  | none => none

/-- Lines 313-314: the two relay threads a paired worker spawns, as
(sender, receiver) pairs: `relay(conn, partner_conn, ...)` and
`relay(partner_conn, conn, ...)`. -/
def relay_spawns (conn partner_conn : Nat) : List (Nat × Nat) :=
  [(conn, partner_conn), (partner_conn, conn)]

theorem dictFind_erase_self {κ α : Type} [DecidableEq κ] (k : κ) (d : List (κ × α)) :
    dictFind k (dictErase k d) = none := by
  induction d with
  | nil => rfl
  | cons p d ih =>
    simp only [dictErase]
    by_cases h : k = p.1
    · simp only [if_pos h]
      exact ih
    · simp only [if_neg h, dictFind]
      exact ih

theorem dictFind_erase_ne {κ α : Type} [DecidableEq κ] {k k' : κ} (h : k' ≠ k)
    (d : List (κ × α)) : dictFind k' (dictErase k d) = dictFind k' d := by
  induction d with
  | nil => rfl
  | cons p d ih =>
    by_cases hk : k = p.1
    · subst hk
      simp [dictErase, dictFind, h, ih]
    · by_cases hk' : k' = p.1 <;> simp [dictErase, dictFind, hk, hk', ih]

theorem dictFind_insert_self {κ α : Type} [DecidableEq κ] (k : κ) (v : α)
    (d : List (κ × α)) : dictFind k (dictInsert k v d) = some v := by
  simp [dictInsert, dictFind]

theorem dictFind_insert_ne {κ α : Type} [DecidableEq κ] {k k' : κ} (h : k' ≠ k) (v : α)
    (d : List (κ × α)) : dictFind k' (dictInsert k v d) = dictFind k' d := by
  simp [dictInsert, dictFind, h, dictFind_erase_ne h]

theorem relay_go_stop_and_noclose (sender receiver : Nat) :
    ∀ (input : List RelayEv) (buffer : List Char) (effs : List Effect) (b : Bool),
      relay_go sender receiver buffer input = some (effs, b) →
      b = true ∧ ∀ c : Nat, Effect.close c ∉ effs := by
  intro input
  induction input with
  | nil => intro buffer effs b h; exact absurd h (by simp [relay_go])
  | cons e rest ih =>
    intro buffer effs b h
    cases e with
    | stopObserved =>
      simp only [relay_go, Option.some.injEq, Prod.mk.injEq] at h
      obtain ⟨he, hb⟩ := h
      subst he; subst hb
      exact ⟨rfl, by simp⟩
    | timeout => exact ih buffer effs b h
    | err =>
      simp only [relay_go, Option.some.injEq, Prod.mk.injEq] at h
      obtain ⟨he, hb⟩ := h
      subst he; subst hb
      exact ⟨rfl, by simp⟩
    | eof =>
      simp only [relay_go, Option.some.injEq, Prod.mk.injEq] at h
      obtain ⟨he, hb⟩ := h
      subst he; subst hb
      exact ⟨rfl, by simp⟩
    | chr c =>
      by_cases hterm : c = '\r' ∨ c = '\n'
      · by_cases hbuf : buffer = []
        · rw [relay_go, if_pos hterm, if_pos hbuf] at h
          exact ih [] effs b h
        · by_cases hquit : pyLower (pyStrip buffer) = "/quit".data
          · rw [relay_go, if_pos hterm, if_neg hbuf] at h
            simp only [hquit, if_pos, Option.some.injEq, Prod.mk.injEq] at h
            obtain ⟨he, hb⟩ := h
            subst he; subst hb
            exact ⟨rfl, by simp⟩
          · rw [relay_go, if_pos hterm, if_neg hbuf] at h
            simp only [hquit, if_false, Option.map_eq_some'] at h
            obtain ⟨p, hp, hmk⟩ := h
            obtain ⟨h1, hrec⟩ := ih [] p.1 p.2 (by rw [hp])
            cases hmk
            refine ⟨h1, ?_⟩
            intro cc
            simp only [List.mem_cons]
            push_neg
            exact ⟨by simp, by simp, hrec cc⟩
      · by_cases hbs : c = '\x7f' ∨ c = '\x08'
        · by_cases hbuf : buffer = []
          · rw [relay_go, if_neg hterm, if_pos hbs, if_pos hbuf] at h
            exact ih buffer effs b h
          · rw [relay_go, if_neg hterm, if_pos hbs, if_neg hbuf] at h
            simp only [Option.map_eq_some'] at h
            obtain ⟨p, hp, hmk⟩ := h
            obtain ⟨h1, hrec⟩ := ih buffer.dropLast p.1 p.2 (by rw [hp])
            cases hmk
            refine ⟨h1, ?_⟩
            intro cc
            simp only [List.mem_cons]
            push_neg
            exact ⟨by simp, hrec cc⟩
        · rw [relay_go, if_neg hterm, if_neg hbs] at h
          simp only [Option.map_eq_some'] at h
          obtain ⟨p, hp, hmk⟩ := h
          obtain ⟨h1, hrec⟩ := ih (buffer ++ [c]) p.1 p.2 (by rw [hp])
          cases hmk
          refine ⟨h1, ?_⟩
          intro cc
          simp only [List.mem_cons]
          push_neg
          exact ⟨by simp, hrec cc⟩

theorem relay_go_feed (sender receiver : Nat) :
    ∀ (cs : List Char) (b : List Char) (rest : List RelayEv),
      (∀ c ∈ cs, goodChar c) →
      relay_go sender receiver b (cs.map RelayEv.chr ++ rest) =
        (relay_go sender receiver (b ++ cs) rest).map fun p =>
          (cs.map (fun c => Effect.send sender (String.mk [c])) ++ p.1, p.2) := by
  intro cs
  induction cs with
  | nil =>
    intro b rest _
    simp only [List.map_nil, List.nil_append, List.append_nil]
    cases h : relay_go sender receiver b rest <;> simp
  | cons c cs ih =>
    intro b rest hgood
    obtain ⟨hc1, hc2, hc3, hc4⟩ := hgood c (by simp)
    have hterm : ¬(c = '\r' ∨ c = '\n') := by tauto
    have hbs : ¬(c = '\x7f' ∨ c = '\x08') := by tauto
    simp only [List.map_cons, List.cons_append]
    rw [relay_go, if_neg hterm, if_neg hbs]
    rw [ih (b ++ [c]) rest (fun x hx => hgood x (by simp [hx]))]
    simp only [Option.map_map, List.append_assoc, List.cons_append, List.nil_append]
    cases relay_go sender receiver (b ++ c :: cs) rest <;> rfl

theorem relay_go_line_end (sender receiver : Nat) (b : List Char) (rest : List RelayEv)
    (t : Char) (ht : t = '\r' ∨ t = '\n') (hb : b ≠ [])
    (hq : pyLower (pyStrip b) ≠ "/quit".data) :
    relay_go sender receiver b (.chr t :: rest) =
      (relay_go sender receiver [] rest).map fun p =>
        (Effect.send receiver (chatFrame (String.mk (pyStrip b))) ::
          Effect.send sender promptEcho :: p.1, p.2) := by
  rw [relay_go, if_pos ht, if_neg hb]
  simp only [hq, if_false]

theorem relay_go_lines (sender receiver : Nat) :
    ∀ (ls : List (List Char)) (rest : List RelayEv),
      (∀ l ∈ ls, l ≠ [] ∧ (∀ c ∈ l, goodChar c) ∧ pyLower (pyStrip l) ≠ "/quit".data) →
      relay_go sender receiver [] ((ls.map encodeLine).flatten ++ rest) =
        (relay_go sender receiver [] rest).map fun p =>
          (lineEffs sender receiver ls ++ p.1, p.2) := by
  intro ls
  induction ls with
  | nil =>
    intro rest _
    simp only [List.map_nil, List.flatten_nil, List.nil_append, lineEffs]
    cases relay_go sender receiver [] rest <;> rfl
  | cons l ls ih =>
    intro rest hls
    obtain ⟨hne, hgood, hq⟩ := hls l (by simp)
    have harr : ((l :: ls).map encodeLine).flatten ++ rest =
        l.map RelayEv.chr ++
          (RelayEv.chr '\n' :: ((ls.map encodeLine).flatten ++ rest)) := by
      simp [encodeLine]
    rw [harr, relay_go_feed sender receiver l [] _ hgood]
    simp only [List.nil_append]
    rw [relay_go_line_end sender receiver l _ '\n' (Or.inr rfl) hne hq]
    rw [ih rest (fun x hx => hls x (by simp [hx]))]
    simp only [Option.map_map]
    cases relay_go sender receiver [] rest with
    | none => rfl
    | some p =>
      simp [lineEffs, List.append_assoc]

theorem framesTo_lineEffs (sender receiver : Nat) (h : sender ≠ receiver)
    (ls : List (List Char)) :
    framesTo receiver (lineEffs sender receiver ls) =
      ls.map fun l => chatFrame (String.mk (pyStrip l)) := by
  induction ls with
  | nil => rfl
  | cons l ls ih =>
    simp only [lineEffs, List.map_cons, List.flatten_cons, framesTo,
      List.filterMap_append] at ih ⊢
    rw [ih]
    simp [List.filterMap_map, Function.comp, h]

/-- C2: in a paired session, a received line whose trimmed content
case-insensitively equals the leave token `"/quit"` makes the relay loop send
the departure notice to the receiver, set the shared termination signal, and
return — ignoring any input that follows.  The line's characters are echoed
back to the sender as they are typed (lines 237-242 of the source). -/
theorem relay_quit_notifies_and_stops (sender receiver : Nat) (l : List Char) (t : Char)
    (rest : List RelayEv) (hne : l ≠ []) (hgood : ∀ c ∈ l, goodChar c)
    (ht : t = '\r' ∨ t = '\n')
    (hquit : pyLower (pyStrip l) = "/quit".data) :
    relay sender receiver (l.map .chr ++ .chr t :: rest) =
      some ((l.map fun c => Effect.send sender (String.mk [c])) ++
        [Effect.send receiver quitNotice], true) := by
  rw [relay, relay_go_feed sender receiver l [] (.chr t :: rest) hgood]
  simp only [List.nil_append]
  rw [relay_go, if_pos ht, if_neg hne]
  simp [hquit]

/-- Witness for C2: the line `" /Quit "` (mixed case, padded) followed by more
input: the notice is sent, the signal is set, and the extra input is ignored. -/
theorem relay_quit_notifies_and_stops_witness :
    relay 0 1 ([' ', '/', 'Q', 'u', 'i', 't', ' '].map .chr ++
        RelayEv.chr '\n' :: [.chr 'x', .eof]) =
      some (([' ', '/', 'Q', 'u', 'i', 't', ' '].map fun c =>
          Effect.send 0 (String.mk [c])) ++ [Effect.send 1 quitNotice], true) :=
  relay_quit_notifies_and_stops 0 1 [' ', '/', 'Q', 'u', 'i', 't', ' '] '\n'
    [.chr 'x', .eof] (by decide) (by decide) (by decide) (by decide)

/-- One isolated relay loop, handed its sender's whole byte stream, forwards a
sequence of ordinary chat lines in order, each exactly once: the list of
messages `framesTo` the receiver is precisely the list of framed lines.  In
the program this premise — a single reader of the sender's socket — holds only
for the waiter→joiner direction; the joiner's socket is read by three racing
threads, so the joiner→waiter direction does not reduce to one such call. -/
theorem relay_preserves_message_order (sender receiver : Nat) (ls : List (List Char))
    (hne : sender ≠ receiver)
    (hls : ∀ l ∈ ls, l ≠ [] ∧ (∀ c ∈ l, goodChar c) ∧
      pyLower (pyStrip l) ≠ "/quit".data) :
    ∃ effs : List Effect,
      relay sender receiver ((ls.map encodeLine).flatten ++ [.eof]) =
        some (effs, true) ∧
      framesTo receiver effs = ls.map fun l => chatFrame (String.mk (pyStrip l)) := by
  refine ⟨lineEffs sender receiver ls, ?_, framesTo_lineEffs sender receiver hne ls⟩
  rw [relay, relay_go_lines sender receiver ls [.eof] hls]
  simp [relay_go]

/-- Instance of the isolated-loop order preservation at the lines `"a"`,
`"b"`, `"c"`. -/
theorem relay_preserves_message_order_witness :
    ∃ effs : List Effect,
      relay 0 1 (([['a'], ['b'], ['c']].map encodeLine).flatten ++ [.eof]) =
        some (effs, true) ∧
      framesTo 1 effs = [['a'], ['b'], ['c']].map fun l =>
        chatFrame (String.mk (pyStrip l)) :=
  relay_preserves_message_order 0 1 [['a'], ['b'], ['c']] (by decide) (by decide)

theorem read_line_go_eof_pending (line : List Char) :
    ∀ n : Nat, read_line_go line (List.replicate n .eof) = .pending := by
  intro n
  induction n with
  | zero => rfl
  | succ n ih =>
    rw [List.replicate_succ]
    simpa only [read_line_go] using ih

/-- C7: `read_line` returns the text of a complete line at a terminator and
returns `None` on a read timeout or socket error — but on a peer that closes
the stream before any terminator (`recv` returning the empty byte string
forever) it neither returns a line nor signals failure: the empty decode result
passes the `isprintable()` branch and the loop spins without ever returning,
for any number of empty reads. -/
theorem read_line_eof_busy_loop :
    read_line [.chr 'h', .chr 'i', .chr '\n'] = .line "hi" ∧
    read_line [.timeout] = .fail ∧
    read_line [.chr 'a', .err] = .fail ∧
    ∀ n : Nat, read_line (.chr 'a' :: List.replicate n .eof) = .pending := by
  refine ⟨by decide, by decide, by decide, ?_⟩
  intro n
  have h1 : ¬('a' = '\r' ∨ 'a' = '\n') := by decide
  have h2 : ¬('a' = '\x7f' ∨ 'a' = '\x08') := by decide
  have h3 : pyIsPrintable 'a' = true := by decide
  show read_line_go [] (RecvEv.chr 'a' :: List.replicate n RecvEv.eof) = .pending
  rw [read_line_go, if_neg h1, if_neg h2, if_pos h3]
  simpa only [List.nil_append] using read_line_go_eof_pending ['a'] n

/-- Witness for C7 at a concrete number of empty reads. -/
theorem read_line_eof_busy_loop_witness :
    read_line (.chr 'a' :: List.replicate 5 .eof) = .pending :=
  read_line_eof_busy_loop.2.2.2 5

theorem step_arrive_create (s : Sys) (c : Nat) (raw : String)
    (hc : dictFind c s.conns = none) (hne : normalizeCode raw ≠ "")
    (habs : dictFind (normalizeCode raw) s.connected_events = none) :
    step (.arrive c raw) s = some
      { s with
        connected_events := dictInsert (normalizeCode raw) c s.connected_events,
        entries := dictInsert c ⟨false, none, s.now⟩ s.entries,
        conns := dictInsert c (.waiting (normalizeCode raw)) s.conns,
        trace := s.trace ++ [.send c roomCreatedMsg] } := by
  simp [step, hc, hne, habs]

theorem step_arrive_join (s : Sys) (c w : Nat) (raw : String) (e : Entry)
    (hc : dictFind c s.conns = none) (hne : normalizeCode raw ≠ "")
    (hw : dictFind (normalizeCode raw) s.connected_events = some w)
    (he : dictFind w s.entries = some e) :
    step (.arrive c raw) s = some
      { s with
        connected_events := dictErase (normalizeCode raw) s.connected_events,
        entries := dictInsert w { e with fired := true, partner := some c } s.entries,
        conns := dictInsert c (.joined w) s.conns,
        trace := s.trace ++ [.send c joinerConnectedMsg] } := by
  simp [step, hc, hne, hw, he]

theorem step_wake_timeout (s : Sys) (c : Nat) (code : String) (e : Entry)
    (hph : dictFind c s.conns = some (.waiting code))
    (he : dictFind c s.entries = some e)
    (hcase : (e.fired = false ∧ e.createdAt + PAIR_TIMEOUT ≤ s.now) ∨
      (e.fired = true ∧ e.partner = none)) :
    step (.wake c) s = some
      { s with
        connected_events := dictErase code s.connected_events,
        conns := dictInsert c .timedOut s.conns,
        trace := s.trace ++ [.send c timeoutMsg, .close c] } := by
  rcases hcase with ⟨hf, ht⟩ | ⟨hf, hp⟩
  · simp [step, hph, he, hf, ht]
  · simp [step, hph, he, hf, hp]

theorem step_wake_paired (s : Sys) (c p : Nat) (code : String) (e : Entry)
    (hph : dictFind c s.conns = some (.waiting code))
    (he : dictFind c s.entries = some e)
    (hf : e.fired = true) (hp : e.partner = some p) :
    step (.wake c) s = some
      { s with
        conns := dictInsert c (.pairedDone p) s.conns,
        trace := s.trace ++ [.send c waiterPairedMsg, .send p partnerConnectedMsg] } := by
  simp [step, hph, he, hf, hp]

/-- C1: for a room id `R`, the first connection presenting `R` creates a
waiting registry entry; the second connection presenting `R` before expiry
removes that entry and is recorded as the first's partner (with the ready
signal fired) in the same atomic step — the whole absent/present check plus
the corresponding insert or pop runs inside `with events_lock`, one `step` of
the model; a third connection presenting `R` afterwards cannot join the first
pairing: it creates a fresh entry and the first pairing's partner is
unchanged. -/
theorem joinOrCreate_pairs_first_two_excludes_third
    (s : Sys) (c1 c2 c3 : Nat) (raw1 raw2 raw3 R : String)
    (h1 : normalizeCode raw1 = R) (h2 : normalizeCode raw2 = R)
    (h3 : normalizeCode raw3 = R) (hR : R ≠ "")
    (habs : dictFind R s.connected_events = none)
    (hc1 : dictFind c1 s.conns = none) (hc2 : dictFind c2 s.conns = none)
    (hc3 : dictFind c3 s.conns = none)
    (h21 : c2 ≠ c1) (h31 : c3 ≠ c1) (h32 : c3 ≠ c2) :
    ∃ s1 s2 s3 : Sys,
      step (.arrive c1 raw1) s = some s1 ∧
      dictFind R s1.connected_events = some c1 ∧
      dictFind c1 s1.entries = some ⟨false, none, s.now⟩ ∧
      step (.arrive c2 raw2) s1 = some s2 ∧
      dictFind R s2.connected_events = none ∧
      dictFind c1 s2.entries = some ⟨true, some c2, s.now⟩ ∧
      step (.arrive c3 raw3) s2 = some s3 ∧
      dictFind R s3.connected_events = some c3 ∧
      dictFind c1 s3.entries = some ⟨true, some c2, s.now⟩ ∧
      dictFind c3 s3.entries = some ⟨false, none, s.now⟩ := by
  have hstep1 := step_arrive_create s c1 raw1 hc1 (by rw [h1]; exact hR)
    (by rw [h1]; exact habs)
  rw [h1] at hstep1
  have hc2' : dictFind c2 (dictInsert c1 (Phase.waiting R) s.conns) = none := by
    rw [dictFind_insert_ne h21]
    exact hc2
  have hstep2 := step_arrive_join
    { s with
      connected_events := dictInsert R c1 s.connected_events,
      entries := dictInsert c1 ⟨false, none, s.now⟩ s.entries,
      conns := dictInsert c1 (Phase.waiting R) s.conns,
      trace := s.trace ++ [Effect.send c1 roomCreatedMsg] }
    c2 c1 raw2 ⟨false, none, s.now⟩ hc2' (by rw [h2]; exact hR)
    (by rw [h2]; exact dictFind_insert_self R c1 s.connected_events)
    (dictFind_insert_self c1 _ s.entries)
  rw [h2] at hstep2
  have hc3' : dictFind c3 (dictInsert c2 (Phase.joined c1)
      (dictInsert c1 (Phase.waiting R) s.conns)) = none := by
    rw [dictFind_insert_ne h32, dictFind_insert_ne h31]
    exact hc3
  have hstep3 := step_arrive_create
    { s with
      connected_events := dictErase R (dictInsert R c1 s.connected_events),
      entries := dictInsert c1 (⟨true, some c2, s.now⟩ : Entry)
        (dictInsert c1 ⟨false, none, s.now⟩ s.entries),
      conns := dictInsert c2 (Phase.joined c1)
        (dictInsert c1 (Phase.waiting R) s.conns),
      trace := (s.trace ++ [Effect.send c1 roomCreatedMsg]) ++
        [Effect.send c2 joinerConnectedMsg] }
    c3 raw3 hc3' (by rw [h3]; exact hR)
    (by rw [h3]; exact dictFind_erase_self R _)
  rw [h3] at hstep3
  exact ⟨_, _, _, hstep1,
    dictFind_insert_self R c1 s.connected_events,
    dictFind_insert_self c1 _ s.entries,
    hstep2,
    dictFind_erase_self R _,
    dictFind_insert_self c1 _ _,
    hstep3,
    dictFind_insert_self R c3 _,
    (dictFind_insert_ne (Ne.symm h31) _ _).trans (dictFind_insert_self c1 _ _),
    dictFind_insert_self c3 _ _⟩

/-- Witness for C1: from the empty server, connections 1, 2, 3 present
`"room1"`; 1 creates, 2 joins and becomes 1's partner, 3 creates afresh. -/
theorem joinOrCreate_pairs_first_two_excludes_third_witness :
    ∃ s1 s2 s3 : Sys,
      step (.arrive 1 "room1") initSys = some s1 ∧
      dictFind "ROOM1" s1.connected_events = some 1 ∧
      dictFind 1 s1.entries = some ⟨false, none, initSys.now⟩ ∧
      step (.arrive 2 "room1") s1 = some s2 ∧
      dictFind "ROOM1" s2.connected_events = none ∧
      dictFind 1 s2.entries = some ⟨true, some 2, initSys.now⟩ ∧
      step (.arrive 3 "room1") s2 = some s3 ∧
      dictFind "ROOM1" s3.connected_events = some 3 ∧
      dictFind 1 s3.entries = some ⟨true, some 2, initSys.now⟩ ∧
      dictFind 3 s3.entries = some ⟨false, none, initSys.now⟩ :=
  joinOrCreate_pairs_first_two_excludes_third initSys 1 2 3 "room1" "room1" "room1"
    "ROOM1" (by decide) (by decide) (by decide) (by decide) (by decide) (by decide)
    (by decide) (by decide) (by decide) (by decide) (by decide)

/-- C5: the room-code line is trimmed and case-folded to canonical uppercase
(`code.strip().upper()`, line 265) before the registry lookup, so two clients
presenting codes that normalize alike — such as `"abc"` and `"ABC"` — are
paired in the same room: the entry is created and found under the normalized
key, and the second client becomes the first's partner. -/
theorem room_ids_case_insensitive (s : Sys) (c1 c2 : Nat) (raw1 raw2 : String)
    (heq : normalizeCode raw2 = normalizeCode raw1)
    (hne : normalizeCode raw1 ≠ "")
    (habs : dictFind (normalizeCode raw1) s.connected_events = none)
    (hc1 : dictFind c1 s.conns = none) (hc2 : dictFind c2 s.conns = none)
    (h21 : c2 ≠ c1) :
    ∃ s1 s2 : Sys,
      step (.arrive c1 raw1) s = some s1 ∧
      dictFind (normalizeCode raw1) s1.connected_events = some c1 ∧
      step (.arrive c2 raw2) s1 = some s2 ∧
      (dictFind c1 s2.entries).map Entry.partner = some (some c2) := by
  have hstep1 := step_arrive_create s c1 raw1 hc1 hne habs
  have hc2' : dictFind c2
      (dictInsert c1 (Phase.waiting (normalizeCode raw1)) s.conns) = none := by
    rw [dictFind_insert_ne h21]
    exact hc2
  have hstep2 := step_arrive_join
    { s with
      connected_events := dictInsert (normalizeCode raw1) c1 s.connected_events,
      entries := dictInsert c1 ⟨false, none, s.now⟩ s.entries,
      conns := dictInsert c1 (Phase.waiting (normalizeCode raw1)) s.conns,
      trace := s.trace ++ [Effect.send c1 roomCreatedMsg] }
    c2 c1 raw2 ⟨false, none, s.now⟩ hc2' (by rw [heq]; exact hne)
    (by rw [heq]; exact dictFind_insert_self (normalizeCode raw1) c1 s.connected_events)
    (dictFind_insert_self c1 _ s.entries)
  refine ⟨_, _, hstep1,
    dictFind_insert_self (normalizeCode raw1) c1 s.connected_events, hstep2, ?_⟩
  rw [dictFind_insert_self c1 _ _]
  rfl

/-- Witness for C5: `"abc"` then `"ABC"` are paired in room `"ABC"`. -/
theorem room_ids_case_insensitive_witness :
    ∃ s1 s2 : Sys,
      step (.arrive 1 "abc") initSys = some s1 ∧
      dictFind (normalizeCode "abc") s1.connected_events = some 1 ∧
      step (.arrive 2 "ABC") s1 = some s2 ∧
      (dictFind 1 s2.entries).map Entry.partner = some (some 2) :=
  room_ids_case_insensitive initSys 1 2 "abc" "ABC" (by decide) (by decide)
    (by decide) (by decide) (by decide) (by decide)

/-- Success path of the timeout eviction, i.e. when the notice send of line
290 does not raise: a waiting party whose ready signal did not fire within
the pairing timeout — or, defensively, fired with no partner set — has its
entry popped from the registry, receives the timeout notice, and its
connection is closed by the worker's final cleanup; the room id is then
available again: a later client presenting the same id creates a fresh entry.
The C4 theorem further below shows that when that send raises, the pop is
skipped and none of this holds. -/
theorem pairing_timeout_evicts_and_closes (s : Sys) (c : Nat) (code : String)
    (e : Entry) (c2 : Nat) (raw2 : String)
    (hph : dictFind c s.conns = some (.waiting code))
    (he : dictFind c s.entries = some e)
    (hcase : (e.fired = false ∧ e.createdAt + PAIR_TIMEOUT ≤ s.now) ∨
      (e.fired = true ∧ e.partner = none))
    (hc2 : dictFind c2 s.conns = none) (h2c : c2 ≠ c)
    (hraw2 : normalizeCode raw2 = code) (hcode : code ≠ "") :
    ∃ s' s'' : Sys,
      step (.wake c) s = some s' ∧
      dictFind code s'.connected_events = none ∧
      s'.trace = s.trace ++ [.send c timeoutMsg, .close c] ∧
      step (.arrive c2 raw2) s' = some s'' ∧
      dictFind code s''.connected_events = some c2 := by
  have hstep1 := step_wake_timeout s c code e hph he hcase
  have hc2' : dictFind c2 (dictInsert c Phase.timedOut s.conns) = none := by
    rw [dictFind_insert_ne h2c]
    exact hc2
  have hstep2 := step_arrive_create
    { s with
      connected_events := dictErase code s.connected_events,
      conns := dictInsert c Phase.timedOut s.conns,
      trace := s.trace ++ [Effect.send c timeoutMsg, Effect.close c] }
    c2 raw2 hc2' (by rw [hraw2]; exact hcode)
    (by rw [hraw2]; exact dictFind_erase_self code s.connected_events)
  rw [hraw2] at hstep2
  exact ⟨_, _, hstep1,
    dictFind_erase_self code s.connected_events,
    rfl,
    hstep2,
    dictFind_insert_self code c2 _⟩

/-- Instance of the success-path eviction: connection 1 creates room `"ROOM"`
at time 0, 301 seconds pass, its wait times out and the notice send succeeds;
the entry is evicted, the notice and close are recorded, and connection 2
presenting `" room "` re-creates the room. -/
theorem pairing_timeout_evicts_and_closes_witness :
    ∃ s' s'' : Sys,
      step (.wake 1)
        { connected_events := [("ROOM", 1)],
          entries := [(1, ⟨false, none, 0⟩)],
          conns := [(1, .waiting "ROOM")],
          now := 301,
          trace := [.send 1 roomCreatedMsg] } = some s' ∧
      dictFind "ROOM" s'.connected_events = none ∧
      s'.trace = [Effect.send 1 roomCreatedMsg] ++
        [.send 1 timeoutMsg, .close 1] ∧
      step (.arrive 2 " room ") s' = some s'' ∧
      dictFind "ROOM" s''.connected_events = some 2 :=
  pairing_timeout_evicts_and_closes
    { connected_events := [("ROOM", 1)],
      entries := [(1, ⟨false, none, 0⟩)],
      conns := [(1, .waiting "ROOM")],
      now := 301,
      trace := [.send 1 roomCreatedMsg] }
    1 "ROOM" ⟨false, none, 0⟩ 2 " room "
    (by decide) (by decide) (Or.inl (by decide)) (by decide) (by decide)
    (by decide) (by decide)

/-- Counterexample for C8: `main` (src/server.py lines 349-368) spawns one
`handle_client_final` worker per accepted connection and nothing else — there
is no background sweeper thread and no `sweepExpired` operation anywhere in
the source.  Concretely: connection 1 creates room `"R"` at time 0; 400
seconds (beyond the 300-second pairing timeout, and beyond any 30-second poll
tick) then pass.  The claimed sweeper would have removed the expired entry,
notified the waiting connection and closed it; in fact the registry still
holds the entry and the only effect ever produced is the room-created notice —
no expiry notice, no close. -/
theorem sweeper_absent_counterexample :
    (run [.arrive 1 "R", .tick 400] initSys).map
      (fun s => (dictFind "R" s.connected_events, s.now, s.trace)) =
    some (some 1, 400, [.send 1 roomCreatedMsg]) := by decide

/-- C8 (amended): no background expiry sweeper exists; the mere passage of
wall-clock time changes nothing but the clock — in particular it removes no
registry entry and emits no notice or close.  An entry older than the pairing
timeout is reclaimed only by its own waiting worker: when that worker's
`entry["event"].wait(timeout=300)` returns unfired, it pops the entry, sends
the timeout notice to its own connection and closes it
(src/server.py lines 289-293). -/
theorem no_sweeper_tick_preserves_registry :
    (∀ (dt : Nat) (s : Sys), step (.tick dt) s = some { s with now := s.now + dt }) ∧
    (∀ (s : Sys) (c : Nat) (code : String) (e : Entry),
      dictFind c s.conns = some (.waiting code) →
      dictFind c s.entries = some e →
      e.fired = false →
      e.createdAt + PAIR_TIMEOUT ≤ s.now →
      step (.wake c) s = some
        { s with
          connected_events := dictErase code s.connected_events,
          conns := dictInsert c .timedOut s.conns,
          trace := s.trace ++ [.send c timeoutMsg, .close c] }) :=
  ⟨fun _ _ => rfl,
   fun s c code e hph he hf ht => step_wake_timeout s c code e hph he (Or.inl ⟨hf, ht⟩)⟩

/-- Witness for C8 (amended), at the state reached in the counterexample. -/
theorem no_sweeper_tick_preserves_registry_witness :
    step (.tick 400)
      { connected_events := [("R", 1)], entries := [(1, ⟨false, none, 0⟩)],
        conns := [(1, .waiting "R")], now := 0,
        trace := [.send 1 roomCreatedMsg] } = some
      { connected_events := [("R", 1)], entries := [(1, ⟨false, none, 0⟩)],
        conns := [(1, .waiting "R")], now := 400,
        trace := [.send 1 roomCreatedMsg] } ∧
    step (.wake 1)
      { connected_events := [("R", 1)], entries := [(1, ⟨false, none, 0⟩)],
        conns := [(1, .waiting "R")], now := 400,
        trace := [.send 1 roomCreatedMsg] } = some
      { connected_events := dictErase "R" [("R", 1)],
        entries := [(1, ⟨false, none, 0⟩)],
        conns := dictInsert 1 .timedOut [(1, .waiting "R")], now := 400,
        trace := [.send 1 roomCreatedMsg] ++ [.send 1 timeoutMsg, .close 1] } :=
  ⟨no_sweeper_tick_preserves_registry.1 400 _,
   no_sweeper_tick_preserves_registry.2
     { connected_events := [("R", 1)], entries := [(1, ⟨false, none, 0⟩)],
       conns := [(1, .waiting "R")], now := 400,
       trace := [.send 1 roomCreatedMsg] }
     1 "R" ⟨false, none, 0⟩ (by decide) (by decide) (by decide) (by decide)⟩

theorem step_preserves_entries_invariant (a : Act) (s s' : Sys)
    (h : step a s = some s')
    (ih : ∀ w e, dictFind w s.entries = some e → e.fired = true → e.partner ≠ none) :
    ∀ w e, dictFind w s'.entries = some e → e.fired = true → e.partner ≠ none := by
  cases a with
  | tick dt =>
    simp only [step, Option.some.injEq] at h
    subst h
    exact ih
  | arrive c raw =>
    simp only [step] at h
    split at h
    · simp at h
    · split at h
      · simp only [Option.some.injEq] at h
        subst h
        exact ih
      · split at h
        · split at h
          · simp at h
          · simp only [Option.some.injEq] at h
            subst h
            rename_i w0 hreg hscr e0 he0
            intro w' e' hfind hfired
            by_cases hww : w' = w0
            · subst hww
              rw [dictFind_insert_self] at hfind
              cases hfind
              simp
            · rw [dictFind_insert_ne hww] at hfind
              exact ih w' e' hfind hfired
        · simp only [Option.some.injEq] at h
          subst h
          intro w' e' hfind hfired
          by_cases hwc : w' = c
          · subst hwc
            rw [dictFind_insert_self] at hfind
            cases hfind
            cases hfired
          · rw [dictFind_insert_ne hwc] at hfind
            exact ih w' e' hfind hfired
  | wake c =>
    simp only [step] at h
    split at h
    · split at h
      · simp at h
      · split at h
        · split at h
          · simp only [Option.some.injEq] at h
            subst h
            exact ih
          · simp only [Option.some.injEq] at h
            subst h
            exact ih
        · split at h
          · simp only [Option.some.injEq] at h
            subst h
            exact ih
          · simp at h
    · simp at h
  | wakeTimeoutFail c =>
    simp only [step] at h
    split at h
    · split at h
      · simp at h
      · split at h
        · split at h
          · simp at h
          · simp only [Option.some.injEq] at h
            subst h
            exact ih
        · split at h
          · simp only [Option.some.injEq] at h
            subst h
            exact ih
          · simp at h
    · simp at h

/-- C10: in every reachable state, any entry whose ready event has been fired
has its partner field set — the joining party stores the partner connection in
the entry and fires the event in the same `with events_lock` block (lines
275-277), so `entry["partner"] = conn` precedes `entry["event"].set()`.
Consequently, when a waiting worker's `wait` returns true the defensive branch
`entry["partner"] is None` of line 289 is unreachable: the wake step always
takes the paired path. -/
theorem fired_implies_partner_set (s : Sys) (hs : Reachable s) :
    (∀ w e, dictFind w s.entries = some e → e.fired = true → e.partner ≠ none) ∧
    (∀ c code e, dictFind c s.conns = some (.waiting code) →
      dictFind c s.entries = some e → e.fired = true →
      ∃ p, e.partner = some p ∧
        step (.wake c) s = some
          { s with
            conns := dictInsert c (.pairedDone p) s.conns,
            trace := s.trace ++
              [.send c waiterPairedMsg, .send p partnerConnectedMsg] }) := by
  have hinv : ∀ w e, dictFind w s.entries = some e → e.fired = true →
      e.partner ≠ none := by
    induction hs with
    | base =>
      intro w e hfind _
      simp [initSys, dictFind] at hfind
    | next a hs h ih => exact step_preserves_entries_invariant a _ _ h ih
  refine ⟨hinv, fun c code e hph he hf => ?_⟩
  cases hp : e.partner with
  | none => exact absurd hp (hinv c e he hf)
  | some p => exact ⟨p, rfl, step_wake_paired s c p code e hph he hf hp⟩

/-- Witness for C10 at the reachable state where connection 2 has joined
connection 1 in room `"R"`. -/
theorem fired_implies_partner_set_witness :
    ∃ p, (⟨true, some 2, 0⟩ : Entry).partner = some p ∧
      step (.wake 1)
        { connected_events := [], entries := [(1, ⟨true, some 2, 0⟩)],
          conns := [(2, .joined 1), (1, .waiting "R")], now := 0,
          trace := [.send 1 roomCreatedMsg, .send 2 joinerConnectedMsg] } = some
        { connected_events := [], entries := [(1, ⟨true, some 2, 0⟩)],
          conns := dictInsert 1 (.pairedDone p) [(2, .joined 1), (1, .waiting "R")],
          now := 0,
          trace := [.send 1 roomCreatedMsg, .send 2 joinerConnectedMsg] ++
            [.send 1 waiterPairedMsg, .send p partnerConnectedMsg] } := by
  have h1 : step (.arrive 1 "R") initSys = some
      { connected_events := [("R", 1)], entries := [(1, ⟨false, none, 0⟩)],
        conns := [(1, .waiting "R")], now := 0,
        trace := [.send 1 roomCreatedMsg] } := by decide
  have h2 : step (.arrive 2 "R")
      { connected_events := [("R", 1)], entries := [(1, ⟨false, none, 0⟩)],
        conns := [(1, .waiting "R")], now := 0,
        trace := [.send 1 roomCreatedMsg] } = some
      { connected_events := [], entries := [(1, ⟨true, some 2, 0⟩)],
        conns := [(2, .joined 1), (1, .waiting "R")], now := 0,
        trace := [.send 1 roomCreatedMsg, .send 2 joinerConnectedMsg] } := by decide
  exact (fired_implies_partner_set _
    (Reachable.next _ (Reachable.next _ Reachable.base h1) h2)).2
    1 "R" ⟨true, some 2, 0⟩ (by decide) (by decide) (by decide)

/-- Counterexample for C6: the handshake of `handle_client_final` never
collects a display name — the single line it reads (line 262) is the room
code — and `relay` ignores its `label` argument, tagging every forwarded
message with the fixed text `"Them: "` (line 220).  Concretely: a client's
line `"hi"` is delivered as `"\r\n  Them: hi\r\n  You: "`, which does not
contain the name `"Alice"` (it contains no `'A'` at all), and a client whose
first line is `"Alice"` has that line used as the room code `"ALICE"`. -/
theorem no_display_name_counterexample :
    relay 0 1 [.chr 'h', .chr 'i', .chr '\n', .eof] =
      some ([.send 0 "h", .send 0 "i",
        .send 1 (chatFrame "hi"), .send 0 promptEcho], true) ∧
    chatFrame "hi" = "\r\n  Them: hi\r\n  You: " ∧
    'A' ∉ (chatFrame "hi").data ∧
    (run [.arrive 1 "Alice"] initSys).map (fun s => s.connected_events) =
      some [("ALICE", 1)] :=
  ⟨by decide, by decide, by decide, by decide⟩

/-- C6 (amended): each client's handshake reads exactly one line — the room
code — rejecting an empty (post-normalization) line with the invalid-code
notice and a close; a non-empty first line becomes the normalized registry
key.  Every forwarded chat message is delivered with the fixed label
`"Them: "`, independent of any name: no display name is ever collected or
used. -/
theorem handshake_room_code_and_fixed_label :
    (∀ (s : Sys) (c : Nat) (raw : String),
      dictFind c s.conns = none → normalizeCode raw = "" →
      step (.arrive c raw) s = some
        { s with
          conns := dictInsert c .rejected s.conns,
          trace := s.trace ++ [.send c invalidMsg, .close c] }) ∧
    (∀ (s : Sys) (c : Nat) (raw : String),
      dictFind c s.conns = none → normalizeCode raw ≠ "" →
      dictFind (normalizeCode raw) s.connected_events = none →
      step (.arrive c raw) s = some
        { s with
          connected_events := dictInsert (normalizeCode raw) c s.connected_events,
          entries := dictInsert c ⟨false, none, s.now⟩ s.entries,
          conns := dictInsert c (.waiting (normalizeCode raw)) s.conns,
          trace := s.trace ++ [.send c roomCreatedMsg] }) ∧
    (∀ (sender receiver : Nat) (b : List Char) (rest : List RelayEv) (t : Char),
      (t = '\r' ∨ t = '\n') → b ≠ [] → pyLower (pyStrip b) ≠ "/quit".data →
      relay_go sender receiver b (.chr t :: rest) =
        (relay_go sender receiver [] rest).map fun p =>
          (Effect.send receiver
              ("\r\n  Them: " ++ String.mk (pyStrip b) ++ "\r\n  You: ") ::
            Effect.send sender promptEcho :: p.1, p.2)) := by
  refine ⟨?_, ?_, ?_⟩
  · intro s c raw hc hraw
    simp [step, hc, hraw]
  · intro s c raw hc hraw habs
    exact step_arrive_create s c raw hc hraw habs
  · intro sender receiver b rest t ht hb hq
    exact relay_go_line_end sender receiver b rest t ht hb hq

/-- Witness for C6 (amended): a whitespace-only first line is rejected, the
first line `"Alice"` becomes room code `"ALICE"`, and the line `"hi"` is
delivered with the fixed `"Them: "` label. -/
theorem handshake_room_code_and_fixed_label_witness :
    step (.arrive 1 "  ") initSys = some
      { initSys with
        conns := dictInsert 1 .rejected initSys.conns,
        trace := initSys.trace ++ [.send 1 invalidMsg, .close 1] } ∧
    step (.arrive 1 "Alice") initSys = some
      { initSys with
        connected_events := dictInsert (normalizeCode "Alice") 1
          initSys.connected_events,
        entries := dictInsert 1 ⟨false, none, initSys.now⟩ initSys.entries,
        conns := dictInsert 1 (.waiting (normalizeCode "Alice")) initSys.conns,
        trace := initSys.trace ++ [.send 1 roomCreatedMsg] } ∧
    relay_go 0 1 ['h', 'i'] (.chr '\n' :: [.eof]) =
      (relay_go 0 1 [] [.eof]).map fun p =>
        (Effect.send 1
            ("\r\n  Them: " ++ String.mk (pyStrip ['h', 'i']) ++ "\r\n  You: ") ::
          Effect.send 0 promptEcho :: p.1, p.2) :=
  ⟨handshake_room_code_and_fixed_label.1 initSys 1 "  " (by decide) (by decide),
   handshake_room_code_and_fixed_label.2.1 initSys 1 "Alice" (by decide) (by decide)
     (by decide),
   handshake_room_code_and_fixed_label.2.2 0 1 ['h', 'i'] [.eof] '\n'
     (Or.inr rfl) (by decide) (by decide)⟩

/-- C9: the relay loops close neither connection and return only with the
shared termination signal set (`finally: stop_event.set()`), and each
`handle_client_final` worker closes exactly one connection — its own — as the
final effect of its cleanup, on every exit path: the whole trace is a list of
sends followed by the single `close self`. -/
theorem close_exactly_once_and_relay_never_closes
    (self p : Nat) (o : Oracle) (inA inB : List RelayEv)
    (effsA effsB : List Effect) (bA bB : Bool)
    (hA : relay self p inA = some (effsA, bA))
    (hB : relay p self inB = some (effsB, bB)) :
    bA = true ∧ bB = true ∧
    (∀ c, Effect.close c ∉ effsA) ∧ (∀ c, Effect.close c ∉ effsB) ∧
    ∃ pre : List Effect,
      handle_client_final self o effsA effsB = pre ++ [Effect.close self] ∧
      ∀ c : Nat, Effect.close c ∉ pre := by
  obtain ⟨hbA, hnA⟩ := relay_go_stop_and_noclose self p inA [] effsA bA hA
  obtain ⟨hbB, hnB⟩ := relay_go_stop_and_noclose p self inB [] effsB bB hB
  refine ⟨hbA, hbB, hnA, hnB, ?_⟩
  obtain ⟨cl, jf, wf, wp, nok⟩ := o
  simp only [handle_client_final]
  cases cl with
  | none => exact ⟨[], rfl, by simp⟩
  | some raw =>
    dsimp only
    by_cases hraw : normalizeCode raw = ""
    · rw [if_pos hraw]
      exact ⟨[Effect.send self invalidMsg], rfl, by simp⟩
    · rw [if_neg hraw]
      cases jf with
      | true =>
        rw [if_pos rfl]
        cases nok with
        | true =>
          rw [if_pos rfl]
          refine ⟨Effect.send self joinerConnectedMsg :: (effsA ++ effsB), rfl, ?_⟩
          intro c
          simp only [List.mem_cons, List.mem_append]
          push_neg
          exact ⟨by simp, hnA c, hnB c⟩
        | false =>
          rw [if_neg (by simp)]
          exact ⟨[], rfl, by simp⟩
      | false =>
        rw [if_neg (by simp)]
        cases wf with
        | true =>
          rw [if_pos rfl]
          cases wp with
          | some q =>
            dsimp only
            cases nok with
            | true =>
              rw [if_pos rfl]
              refine ⟨Effect.send self roomCreatedMsg ::
                Effect.send self waiterPairedMsg ::
                Effect.send q partnerConnectedMsg :: (effsA ++ effsB), rfl, ?_⟩
              intro c
              simp only [List.mem_cons, List.mem_append]
              push_neg
              exact ⟨by simp, by simp, by simp, hnA c, hnB c⟩
            | false =>
              rw [if_neg (by simp)]
              exact ⟨[Effect.send self roomCreatedMsg], rfl, by simp⟩
          | none =>
            exact ⟨[Effect.send self roomCreatedMsg, Effect.send self timeoutMsg],
              rfl, by simp⟩
        | false =>
          rw [if_neg (by simp)]
          exact ⟨[Effect.send self roomCreatedMsg, Effect.send self timeoutMsg],
            rfl, by simp⟩

/-- Witness for C9: worker 0 paired with connection 1, both relay directions
ending at once (end of stream on one, the observed stop signal on the other). -/
theorem close_exactly_once_and_relay_never_closes_witness :
    true = true ∧ true = true ∧
    (∀ c, Effect.close c ∉ ([] : List Effect)) ∧
    (∀ c, Effect.close c ∉ ([] : List Effect)) ∧
    ∃ pre : List Effect,
      handle_client_final 0 ⟨some "R", false, true, some 1, true⟩ [] [] =
        pre ++ [Effect.close 0] ∧
      ∀ c : Nat, Effect.close c ∉ pre :=
  close_exactly_once_and_relay_never_closes 0 1 ⟨some "R", false, true, some 1, true⟩
    [.eof] [.stopObserved] [] [] true true (by decide) (by decide)

/-- C3 (code bug at src/server.py line 302, rooted in line 276): the waiting
party's connection is never stored in the registry entry, and the joining
worker sets `entry["partner"] = conn` — its own socket — at line 276, so the
`partner_conn` it computes at line 302 is its own connection, not the
waiter's.  It therefore spawns `relay(conn, conn)` twice at lines 313-314:
two self-relay loops on its own socket, which race the waiting worker's one
`relay` thread for the bytes the joiner sends — three competing `recv(1)`
callers on one socket.  A line consumed by a self-relay is framed and sent
back to the joiner itself, and the partner receives nothing, so lines sent by
the joining party are not delivered to the partner in order, each exactly
once.  Concretely, after connection 1 creates room `"R"` and connection 2
joins: the popped entry's fields are exactly `⟨fired, partner 2, created 0⟩`
— partner is 2 itself; line 302 yields `partner_conn = some 2`, which is not
the waiter `some 1`; the relay pairs the joiner spawns are `[(2,2), (2,2)]`;
and a self-relay consuming the line `"hi"` sends every effect, the frame
`"Them: hi"` included, to connection 2 — the messages reaching the waiter 1
from that relay are `[]`. -/
theorem joiner_self_relay_bug :
    (run [.arrive 1 "R", .arrive 2 "R"] initSys).map
      (fun s => dictFind 1 s.entries) = some (some ⟨true, some 2, 0⟩) ∧
    joiner_partner_conn ⟨true, some 2, 0⟩ = some 2 ∧
    joiner_partner_conn ⟨true, some 2, 0⟩ ≠ some 1 ∧
    relay_spawns 2 2 = [(2, 2), (2, 2)] ∧
    relay 2 2 (encodeLine ['h', 'i'] ++ [.eof]) =
      some ([.send 2 "h", .send 2 "i", .send 2 (chatFrame "hi"),
        .send 2 promptEcho], true) ∧
    framesTo 1 [.send 2 "h", .send 2 "i", .send 2 (chatFrame "hi"),
      .send 2 promptEcho] = [] :=
  ⟨by decide, by decide, by decide, by decide, by decide, by decide⟩

/-- C4 (code bug at src/server.py line 290): on the timeout path the notice
send of line 290 precedes the registry pop of lines 291-292 and is not
wrapped in a local `try`; if it raises — realistic after a five-minute wait,
when the abandoned client has reset the connection — the exception jumps to
the worker's outer `except`/`finally`, the pop never runs, and the entry
leaks in `connected_events` forever (no sweeper exists to reclaim it).
Concretely: connection 1 creates room `"R"` at time 0 and its wait times out
at 301 with the notice send raising — afterwards the registry still maps
`"R"` to the dead worker's entry, the trace shows no timeout notice, only the
close; and a later connection 2 presenting `"R"` does not get a fresh room:
it takes the join branch of the leaked ghost entry, so the room id is not
available for reuse. -/
theorem timeout_send_failure_leaks_entry :
    (run [.arrive 1 "R", .tick 301, .wakeTimeoutFail 1] initSys).map
      (fun s => (dictFind "R" s.connected_events, s.trace)) =
      some (some 1, [.send 1 roomCreatedMsg, .close 1]) ∧
    (run [.arrive 1 "R", .tick 301, .wakeTimeoutFail 1, .arrive 2 "R"]
        initSys).map
      (fun s => (dictFind 2 s.conns, dictFind "R" s.connected_events)) =
      some (some (.joined 1), none) :=
  ⟨by decide, by decide⟩
